import Mathlib

/-!
Verification development for the PrishaPrep multi-warehouse inventory service
(`main_implementation.py`).  The persistent rows and the three stateful
endpoints (`update_inventory`, `create_order`, `transfer_inventory`) together
with the WebSocket broadcast helper (`notify_clients`) are embedded as pure
Lean functions: the database session becomes explicit state passing, a raised
`HTTPException` becomes an `Except.error` carrying the `detail` string, and
`db.rollback()` becomes returning the pre-call state.  Python integers are
unbounded, so quantities are modelled as `Int`.
-/

namespace PrishaPrep

/-- An `inventory` row: per (product, warehouse) stock counts.
`reserved_quantity` has column default 0. -/
structure StockEntry where
  quantity : Int
  reservedQuantity : Int
  lowStockThreshold : Int
deriving DecidableEq

/-- A ledger key: (product_id, warehouse_id). -/
abbrev Key := Nat × Nat

/-- The committed `inventory` table, keyed by (product_id, warehouse_id).
The unique-row discipline of the composite key is reflected by always reading
and replacing the first matching row. -/
abbrev Store := List (Key × StockEntry)

/-- Row lookup: `db.query(Inventory).filter(product_id, warehouse_id).first()`. -/
def findEntry : Store → Key → Option StockEntry
  | [], _ => none
  | (k', e) :: rest, k => if k' = k then some e else findEntry rest k

/-- Writing a row back: replace the first row with this key, or insert
(`db.add`) when none exists. -/
def setEntry : Store → Key → StockEntry → Store
  | [], k, e => [(k, e)]
  | (k', e') :: rest, k, e =>
    if k' = k then (k, e) :: rest else (k', e') :: setEntry rest k e

/-- The JSON messages passed to `notify_clients`, one constructor per
`"type"` value occurring in the source. -/
inductive Event where
  | low_stock_alert (product_id : Nat) (warehouse_id : Nat) (current_stock : Int)
  | order_created (order_id : Nat) (stat : String)
  | inventory_transfer (product_id : Nat) (from_warehouse : Nat) (to_warehouse : Nat)
      (quantity : Int)
deriving DecidableEq

/-- The `"type"` field of the serialized event. -/
def Event.typeName : Event → String
  | .low_stock_alert .. => "low_stock_alert"
  | .order_created .. => "order_created"
  | .inventory_transfer .. => "inventory_transfer"

/-- Pydantic `InventoryUpdate` request body. -/
structure InventoryUpdateMsg where
  warehouse_id : Nat
  quantity : Int
  low_stock_threshold : Int
deriving DecidableEq

/-- Endpoint `POST /inventory/{product_id}/update`: upsert, commit, then emit a
`low_stock_alert` when `quantity <= low_stock_threshold`.  Returns the new
store and the emitted events. -/
def update_inventory (product_id : Nat) (u : InventoryUpdateMsg) (s : Store) :
    Store × List Event :=
  let k : Key := (product_id, u.warehouse_id)
  let entry : StockEntry :=
    match findEntry s k with
    | none =>
        { quantity := u.quantity, reservedQuantity := 0,
          lowStockThreshold := u.low_stock_threshold }
    | some inv =>
        { inv with quantity := u.quantity,
                   lowStockThreshold := u.low_stock_threshold }
  let s' := setEntry s k entry
  let events :=
    if entry.quantity ≤ entry.lowStockThreshold then
      [Event.low_stock_alert product_id u.warehouse_id u.quantity]
    else []
  (s', events)

/-- One element of `OrderCreate.items`: a dict with keys product_id and quantity. -/
structure OrderItemMsg where
  product_id : Nat
  quantity : Int
deriving DecidableEq

/-- Pydantic `OrderCreate` request body. -/
structure OrderCreateMsg where
  customer_id : Nat
  warehouse_id : Nat
  items : List OrderItemMsg
deriving DecidableEq

/-- A committed `order_items` row. -/
structure OrderItemRec where
  order_id : Nat
  product_id : Nat
  quantity : Int
deriving DecidableEq

/-- A committed `orders` row (timestamps omitted). -/
structure OrderRec where
  id : Nat
  customer_id : Nat
  warehouse_id : Nat
  stat : String
deriving DecidableEq

/-- The committed database state touched by the endpoints, plus the
order-id sequence. -/
structure DBState where
  inventory : Store
  orders : List OrderRec
  order_items : List OrderItemRec
  nextOrderId : Nat
deriving DecidableEq

/-- The per-item loop of `create_order`: check stock, stage an `OrderItem`
row, decrement `quantity` and increment `reserved_quantity`.  The first item
whose row is missing or short-stocked raises an `HTTPException` with status
400 whose detail names that product. -/
def processItems (oid : Nat) (wid : Nat) :
    List OrderItemMsg → Store → Except String (Store × List OrderItemRec)
  | [], s => .ok (s, [])
  | it :: rest, s =>
    match findEntry s (it.product_id, wid) with
    | none => .error ("Insufficient stock for product " ++ toString it.product_id)
    | some e =>
      if e.quantity < it.quantity then
        .error ("Insufficient stock for product " ++ toString it.product_id)
      else
        match processItems oid wid rest
            (setEntry s (it.product_id, wid)
              { quantity := e.quantity - it.quantity,
                reservedQuantity := e.reservedQuantity + it.quantity,
                lowStockThreshold := e.lowStockThreshold }) with
        | .error msg => .error msg
        | .ok (s', recs) => .ok (s', ⟨oid, it.product_id, it.quantity⟩ :: recs)

/-- Endpoint `POST /orders/`: flush a PENDING order, reserve every item in list order,
set status COMPLETED and commit, emitting one `order_created` event; any
failure rolls the whole transaction back (`db.rollback()`), so the returned
state is the pre-call state and the error detail is re-raised. -/
def create_order (o : OrderCreateMsg) (st : DBState) :
    DBState × Except String (OrderRec × List Event) :=
  let oid := st.nextOrderId
  match processItems oid o.warehouse_id o.items st.inventory with
  | .error msg => (st, .error msg)
  | .ok (s', recs) =>
    let ord : OrderRec :=
      { id := oid, customer_id := o.customer_id,
        warehouse_id := o.warehouse_id, stat := "COMPLETED" }
    ({ inventory := s',
       orders := st.orders ++ [ord],
       order_items := st.order_items ++ recs,
       nextOrderId := oid + 1 },
     .ok (ord, [Event.order_created oid "COMPLETED"]))

/-- The `transfer_data` dictionary of `POST /warehouses/{id}/transfer`. -/
structure TransferMsg where
  from_warehouse_id : Nat
  to_warehouse_id : Nat
  product_id : Nat
  quantity : Int
deriving DecidableEq

/-- Endpoint `POST /warehouses/{id}/transfer`: fail when the source row is missing or
`quantity < transfer quantity`; otherwise decrement the source, increment the
destination (creating it with the source's `low_stock_threshold` when
absent — the destination is looked up after the source write, as the ORM
does), commit, and emit one `inventory_transfer` event. -/
def transfer_inventory (t : TransferMsg) (s : Store) :
    Store × Except String (List Event) :=
  match findEntry s (t.product_id, t.from_warehouse_id) with
  | none => (s, .error "Insufficient inventory in source warehouse")
  | some src =>
    if src.quantity < t.quantity then
      (s, .error "Insufficient inventory in source warehouse")
    else
      let s1 := setEntry s (t.product_id, t.from_warehouse_id)
        { src with quantity := src.quantity - t.quantity }
      let s2 :=
        match findEntry s1 (t.product_id, t.to_warehouse_id) with
        | some dest =>
            setEntry s1 (t.product_id, t.to_warehouse_id)
              { dest with quantity := dest.quantity + t.quantity }
        | none =>
            setEntry s1 (t.product_id, t.to_warehouse_id)
              { quantity := t.quantity, reservedQuantity := 0,
                lowStockThreshold := src.lowStockThreshold }
      (s2, .ok [Event.inventory_transfer t.product_id t.from_warehouse_id
                  t.to_warehouse_id t.quantity])

/-- A WebSocket client in `connected_clients`; `connected` is whether
`send_text` would succeed on it. -/
structure ClientObs where
  id : Nat
  connected : Bool
deriving DecidableEq

/-- Broadcast helper `notify_clients`: `for client in connected_clients: await
client.send_text(message)` — no exception handling, so the first failing send
aborts the loop.  The list is the set in iteration order; the result is the
list of (client id, message) deliveries that happened and whether the loop
finished.  The function never removes a client from the set. -/
def notify_clients : List ClientObs → String → List (Nat × String) × Bool
  | [], _ => ([], true)
  | c :: rest, m =>
    if c.connected then
      let r := notify_clients rest m
      ((c.id, m) :: r.1, r.2)
    else
      ([], false)

/-- Modelled from the spec: `Ledger.tryReserve(productId, warehouseId,
amount)` of §4.1 has no counterpart under `src/` (in the source, reservation
only occurs inline in `create_order`); this follows the spec's words:
amount > 0 required else `InvalidArgument`; missing row or
`quantity < amount` is `InsufficientStock`; otherwise move `amount` from
`quantity` into `reservedQuantity`. -/
def tryReserve (s : Store) (pid wid : Nat) (amount : Int) : Except String Store :=
  if amount ≤ 0 then .error "InvalidArgument"
  else
    match findEntry s (pid, wid) with
    | none => .error "InsufficientStock"
    | some e =>
      if e.quantity < amount then .error "InsufficientStock"
      else
        .ok (setEntry s (pid, wid)
          { e with quantity := e.quantity - amount,
                   reservedQuantity := e.reservedQuantity + amount })

/-- Modelled from the spec: `Ledger.release(productId, warehouseId, amount)`
of §4.1 has no counterpart under `src/`; this follows the spec's words: fail
with `InvalidState` if `reservedQuantity < amount` (or no row exists to
release from), else move `amount` back from `reservedQuantity` into
`quantity`. -/
def release (s : Store) (pid wid : Nat) (amount : Int) : Except String Store :=
  match findEntry s (pid, wid) with
  | none => .error "InvalidState"
  | some e =>
    if e.reservedQuantity < amount then .error "InvalidState"
    else
      .ok (setEntry s (pid, wid)
        { e with quantity := e.quantity + amount,
                 reservedQuantity := e.reservedQuantity - amount })

/-- The stock check of `create_order` for one item, read off the current
store: true when the row is missing or available quantity is below the
requested quantity. -/
def cannotReserveB (s : Store) (wid : Nat) (it : OrderItemMsg) : Bool :=
  match findEntry s (it.product_id, wid) with
  | none => true
  | some e => decide (e.quantity < it.quantity)

/-- One public mutating request. -/
inductive Op where
  | setLevel (product_id : Nat) (u : InventoryUpdateMsg)
  | order (o : OrderCreateMsg)
  | transfer (t : TransferMsg)

/-- The committed state after one request (events and response dropped;
failed requests leave the state as the rollback left it). -/
def applyOp (op : Op) (st : DBState) : DBState :=
  match op with
  | .setLevel pid u => { st with inventory := (update_inventory pid u st.inventory).1 }
  | .order o => (create_order o st).1
  | .transfer t => { st with inventory := (transfer_inventory t st.inventory).1 }

/-- The committed state after a sequence of requests. -/
def runOps (ops : List Op) (st : DBState) : DBState :=
  ops.foldl (fun st op => applyOp op st) st

/-- All amounts in the request are non-negative. -/
def Op.wellFormed : Op → Prop
  | .setLevel _ u => 0 ≤ u.quantity
  | .order o => ∀ it ∈ o.items, 0 ≤ it.quantity
  | .transfer t => 0 ≤ t.quantity

instance : DecidablePred Op.wellFormed := by
  intro op
  cases op <;> simp [Op.wellFormed] <;> infer_instance

/-- Every row of the store has non-negative available and reserved stock. -/
def entriesNonneg (s : Store) : Prop :=
  ∀ p ∈ s, 0 ≤ p.2.quantity ∧ 0 ≤ p.2.reservedQuantity

instance : DecidablePred entriesNonneg := by
  intro s
  unfold entriesNonneg
  infer_instance

/-! ### Basic store lemmas -/

theorem findEntry_setEntry_same (s : Store) (k : Key) (e : StockEntry) :
    findEntry (setEntry s k e) k = some e := by
  induction s with
  | nil => simp [setEntry, findEntry]
  | cons p rest ih =>
    by_cases h : p.1 = k
    · simp [setEntry, h, findEntry]
    · simp [setEntry, h, findEntry, ih]

theorem findEntry_setEntry_ne (s : Store) (k k' : Key) (e : StockEntry)
    (h : k' ≠ k) : findEntry (setEntry s k e) k' = findEntry s k' := by
  induction s with
  | nil => simp [setEntry, findEntry, Ne.symm h]
  | cons p rest ih =>
    by_cases hp : p.1 = k
    · simp [setEntry, hp, findEntry, Ne.symm h]
    · simp only [setEntry, if_neg hp, findEntry]
      by_cases hp' : p.1 = k'
      · simp [hp']
      · simp [hp', ih]

theorem mem_setEntry {s : Store} {k : Key} {e : StockEntry} {p : Key × StockEntry}
    (h : p ∈ setEntry s k e) : p = (k, e) ∨ p ∈ s := by
  induction s with
  | nil => simpa [setEntry] using h
  | cons q rest ih =>
    by_cases hq : q.1 = k
    · simp only [setEntry, if_pos hq, List.mem_cons] at h
      rcases h with h | h
      · exact Or.inl h
      · exact Or.inr (List.mem_cons_of_mem _ h)
    · simp only [setEntry, if_neg hq, List.mem_cons] at h
      rcases h with h | h
      · exact Or.inr (h ▸ List.mem_cons_self _ _)
      · rcases ih h with h' | h'
        · exact Or.inl h'
        · exact Or.inr (List.mem_cons_of_mem _ h')

theorem findEntry_mem {s : Store} {k : Key} {e : StockEntry}
    (h : findEntry s k = some e) : (k, e) ∈ s := by
  induction s with
  | nil => simp [findEntry] at h
  | cons p rest ih =>
    by_cases hp : p.1 = k
    · simp only [findEntry, if_pos hp, Option.some.injEq] at h
      have hpe : p = (k, e) := by
        cases p
        simp_all
      rw [hpe]
      exact List.mem_cons_self _ _
    · simp only [findEntry, if_neg hp] at h
      exact List.mem_cons_of_mem _ (ih h)

theorem setEntry_setEntry (s : Store) (k : Key) (e₁ e₂ : StockEntry) :
    setEntry (setEntry s k e₁) k e₂ = setEntry s k e₂ := by
  induction s with
  | nil => simp [setEntry]
  | cons p rest ih =>
    by_cases hp : p.1 = k
    · simp [setEntry, hp]
    · simp [setEntry, hp, ih]

theorem setEntry_self {s : Store} {k : Key} {e : StockEntry}
    (h : findEntry s k = some e) : setEntry s k e = s := by
  induction s with
  | nil => simp [findEntry] at h
  | cons p rest ih =>
    by_cases hp : p.1 = k
    · simp only [findEntry, if_pos hp, Option.some.injEq] at h
      simp only [setEntry, if_pos hp]
      congr 1
      calc (k, e) = (p.1, p.2) := by rw [hp, h]
        _ = p := rfl
    · simp only [findEntry, if_neg hp] at h
      simp [setEntry, hp, ih h]

/-! ### Preservation of non-negative stock by well-formed requests -/

theorem entriesNonneg_setEntry {s : Store} {k : Key} {e : StockEntry}
    (hs : entriesNonneg s) (hq : 0 ≤ e.quantity) (hr : 0 ≤ e.reservedQuantity) :
    entriesNonneg (setEntry s k e) := by
  intro p hp
  rcases mem_setEntry hp with h | h
  · rw [h]
    exact ⟨hq, hr⟩
  · exact hs p h

theorem findEntry_nonneg {s : Store} {k : Key} {e : StockEntry}
    (hs : entriesNonneg s) (h : findEntry s k = some e) :
    0 ≤ e.quantity ∧ 0 ≤ e.reservedQuantity :=
  hs (k, e) (findEntry_mem h)

theorem update_inventory_nonneg {pid : Nat} {u : InventoryUpdateMsg} {s : Store}
    (hs : entriesNonneg s) (hu : 0 ≤ u.quantity) :
    entriesNonneg (update_inventory pid u s).1 := by
  unfold update_inventory
  cases hfind : findEntry s (pid, u.warehouse_id) with
  | none =>
    simp only [hfind]
    exact entriesNonneg_setEntry hs hu le_rfl
  | some inv =>
    simp only [hfind]
    exact entriesNonneg_setEntry hs hu (findEntry_nonneg hs hfind).2

theorem processItems_nonneg {oid wid : Nat} {items : List OrderItemMsg}
    {s s' : Store} {recs : List OrderItemRec}
    (hs : entriesNonneg s) (hitems : ∀ it ∈ items, 0 ≤ it.quantity)
    (h : processItems oid wid items s = .ok (s', recs)) :
    entriesNonneg s' := by
  induction items generalizing s s' recs with
  | nil =>
    simp only [processItems, Except.ok.injEq, Prod.mk.injEq] at h
    exact h.1 ▸ hs
  | cons it rest ih =>
    simp only [processItems] at h
    cases hfind : findEntry s (it.product_id, wid) with
    | none => simp [hfind] at h
    | some e =>
      simp only [hfind] at h
      by_cases hlt : e.quantity < it.quantity
      · simp [hlt] at h
      · simp only [if_neg hlt] at h
        have hq0 := (findEntry_nonneg hs hfind)
        have hit : 0 ≤ it.quantity := hitems it (List.mem_cons_self _ _)
        have hs1 : entriesNonneg (setEntry s (it.product_id, wid)
            { quantity := e.quantity - it.quantity,
              reservedQuantity := e.reservedQuantity + it.quantity,
              lowStockThreshold := e.lowStockThreshold }) := by
          refine entriesNonneg_setEntry hs ?_ ?_
          · exact sub_nonneg.mpr (not_lt.mp hlt)
          · exact add_nonneg hq0.2 hit
        cases hrec : processItems oid wid rest (setEntry s (it.product_id, wid)
            { quantity := e.quantity - it.quantity,
              reservedQuantity := e.reservedQuantity + it.quantity,
              lowStockThreshold := e.lowStockThreshold }) with
        | error msg => simp [hrec] at h
        | ok p =>
          obtain ⟨s2, recs2⟩ := p
          simp only [hrec, Except.ok.injEq, Prod.mk.injEq] at h
          exact h.1 ▸ ih hs1 (fun x hx => hitems x (List.mem_cons_of_mem _ hx)) hrec

theorem create_order_nonneg {o : OrderCreateMsg} {st : DBState}
    (hs : entriesNonneg st.inventory) (ho : ∀ it ∈ o.items, 0 ≤ it.quantity) :
    entriesNonneg (create_order o st).1.inventory := by
  unfold create_order
  cases hrec : processItems st.nextOrderId o.warehouse_id o.items st.inventory with
  | error msg => simpa [hrec] using hs
  | ok p =>
    simp only [hrec]
    exact processItems_nonneg hs ho (by rw [hrec])

theorem transfer_inventory_nonneg {t : TransferMsg} {s : Store}
    (hs : entriesNonneg s) (ht : 0 ≤ t.quantity) :
    entriesNonneg (transfer_inventory t s).1 := by
  unfold transfer_inventory
  cases hfind : findEntry s (t.product_id, t.from_warehouse_id) with
  | none => simpa [hfind] using hs
  | some src =>
    simp only [hfind]
    by_cases hlt : src.quantity < t.quantity
    · simpa [hlt] using hs
    · simp only [if_neg hlt]
      have hs1 : entriesNonneg (setEntry s (t.product_id, t.from_warehouse_id)
          { src with quantity := src.quantity - t.quantity }) :=
        entriesNonneg_setEntry hs (sub_nonneg.mpr (not_lt.mp hlt))
          (findEntry_nonneg hs hfind).2
      cases hdest : findEntry (setEntry s (t.product_id, t.from_warehouse_id)
          { src with quantity := src.quantity - t.quantity })
          (t.product_id, t.to_warehouse_id) with
      | some dest =>
        simp only [hdest]
        exact entriesNonneg_setEntry hs1
          (add_nonneg (findEntry_nonneg hs1 hdest).1 ht)
          (findEntry_nonneg hs1 hdest).2
      | none =>
        simp only [hdest]
        exact entriesNonneg_setEntry hs1 ht le_rfl

theorem applyOp_nonneg {op : Op} {st : DBState}
    (hs : entriesNonneg st.inventory) (hop : op.wellFormed) :
    entriesNonneg (applyOp op st).inventory := by
  cases op with
  | setLevel pid u => exact update_inventory_nonneg hs hop
  | order o => exact create_order_nonneg hs hop
  | transfer t => exact transfer_inventory_nonneg hs hop

/-! ### Claim C1: non-negative stock -/

/-- C1, counterexample: the claim "after every sequence of public operations
every StockEntry has `quantity ≥ 0` and `reservedQuantity ≥ 0`" is false as
stated: `update_inventory` performs no sign check, so a single level-set
request with `quantity = -5` commits a StockEntry with negative quantity. -/
theorem setLevel_negative_breaks_nonneg :
    ¬ entriesNonneg
      (runOps [Op.setLevel 1 ⟨1, -5, 0⟩] ⟨[], [], [], 1⟩).inventory := by
  decide

/-- C1, amended: provided every request carries non-negative amounts (every
level-set quantity, every order-item quantity and every transfer quantity is
`≥ 0`), any sequence of public operations started from a store whose entries
are non-negative leaves every StockEntry with `quantity ≥ 0` and
`reservedQuantity ≥ 0`. -/
theorem runOps_entries_nonneg (ops : List Op) (st : DBState)
    (hst : entriesNonneg st.inventory) (hops : ∀ op ∈ ops, op.wellFormed) :
    entriesNonneg (runOps ops st).inventory := by
  induction ops generalizing st with
  | nil => simpa [runOps] using hst
  | cons op rest ih =>
    simp only [runOps, List.foldl_cons]
    have h1 := applyOp_nonneg hst (hops op (List.mem_cons_self _ _))
    simpa [runOps] using
      ih (applyOp op st) h1 (fun x hx => hops x (List.mem_cons_of_mem _ hx))

/-- C1, witness: a concrete level-set, order and transfer, run from the empty
store, keep all entries non-negative. -/
theorem runOps_entries_nonneg_witness :
    entriesNonneg (⟨[], [], [], 1⟩ : DBState).inventory ∧
    (∀ op ∈ [Op.setLevel 1 ⟨1, 5, 2⟩, Op.order ⟨7, 1, [⟨1, 3⟩]⟩,
        Op.transfer ⟨1, 2, 1, 2⟩], op.wellFormed) ∧
    entriesNonneg
      (runOps [Op.setLevel 1 ⟨1, 5, 2⟩, Op.order ⟨7, 1, [⟨1, 3⟩]⟩,
        Op.transfer ⟨1, 2, 1, 2⟩] ⟨[], [], [], 1⟩).inventory :=
  ⟨by decide, by decide,
    runOps_entries_nonneg _ _ (by decide) (by decide)⟩

/-! ### Claim C7: low-stock alert on level-set -/

/-- C7: a level-set of quantity `q` with threshold `t` emits exactly one
`low_stock_alert` event — carrying the product id, the warehouse id and the
current quantity `q` — iff `q ≤ t`, and emits nothing otherwise; in
particular quantity 5 with threshold 10 emits exactly the one alert with
quantity 5. -/
theorem update_inventory_alert_iff :
    (∀ (pid : Nat) (u : InventoryUpdateMsg) (s : Store),
      (update_inventory pid u s).2 =
        if u.quantity ≤ u.low_stock_threshold then
          [Event.low_stock_alert pid u.warehouse_id u.quantity]
        else []) ∧
    (update_inventory 1 ⟨1, 5, 10⟩ []).2 = [Event.low_stock_alert 1 1 5] := by
  constructor
  · intro pid u s
    unfold update_inventory
    cases hfind : findEntry s (pid, u.warehouse_id) <;> simp [hfind]
  · decide

/-! ### Claim C2: order rejection is all-or-nothing -/

/-- Whether an endpoint call raised (`HTTPException` → rolled back). -/
def isError {α : Type} : Except String α → Bool
  | .error _ => true
  | .ok _ => false

theorem cannotReserveB_mono {s : Store} {wid hp : Nat} {e e' : StockEntry}
    {it : OrderItemMsg}
    (hfind : findEntry s (hp, wid) = some e) (hle : e'.quantity ≤ e.quantity)
    (h : cannotReserveB s wid it = true) :
    cannotReserveB (setEntry s (hp, wid) e') wid it = true := by
  unfold cannotReserveB at h ⊢
  by_cases hpe : it.product_id = hp
  · rw [hpe] at h ⊢
    rw [findEntry_setEntry_same]
    rw [hfind] at h
    simp only [decide_eq_true_eq] at h ⊢
    exact lt_of_le_of_lt hle h
  · have hkey : ((it.product_id, wid) : Key) ≠ (hp, wid) := by simp [hpe]
    rw [findEntry_setEntry_ne _ _ _ _ hkey]
    exact h

theorem processItems_fails {oid wid : Nat} {items : List OrderItemMsg} {s : Store}
    (hq : ∀ it ∈ items, 0 ≤ it.quantity)
    (hex : ∃ it ∈ items, cannotReserveB s wid it = true) :
    ∃ msg, processItems oid wid items s = .error msg := by
  induction items generalizing s with
  | nil => simp at hex
  | cons it rest ih =>
    simp only [processItems]
    cases hfind : findEntry s (it.product_id, wid) with
    | none => exact ⟨_, rfl⟩
    | some e =>
      by_cases hlt : e.quantity < it.quantity
      · simp only [if_pos hlt]
        exact ⟨_, rfl⟩
      · simp only [if_neg hlt]
        have hbadrest : ∃ x ∈ rest,
            cannotReserveB (setEntry s (it.product_id, wid)
              { quantity := e.quantity - it.quantity,
                reservedQuantity := e.reservedQuantity + it.quantity,
                lowStockThreshold := e.lowStockThreshold }) wid x = true := by
          obtain ⟨x, hx, hcx⟩ := hex
          rcases List.mem_cons.mp hx with rfl | hx'
          · exfalso
            unfold cannotReserveB at hcx
            rw [hfind] at hcx
            simp [hlt] at hcx
          · exact ⟨x, hx',
              cannotReserveB_mono hfind
                (sub_le_self _ (hq it (List.mem_cons_self _ _))) hcx⟩
        obtain ⟨msg, hmsg⟩ :=
          ih (fun x hx => hq x (List.mem_cons_of_mem _ hx)) hbadrest
        rw [hmsg]
        exact ⟨msg, rfl⟩

theorem create_order_error {o : OrderCreateMsg} {st : DBState} {msg : String}
    (h : processItems st.nextOrderId o.warehouse_id o.items st.inventory
      = .error msg) :
    create_order o st = (st, .error msg) := by
  unfold create_order
  simp [h]

/-- C2: when some item of the order cannot be fully reserved against the
pre-attempt store (its row is missing or holds less than requested) — item
quantities being non-negative, as the data model requires — `create_order`
raises, the transaction is rolled back, and the whole committed state
(in particular every StockEntry) is exactly its pre-attempt value: no
partially fulfilled order is observable. -/
theorem create_order_rejects_atomically (o : OrderCreateMsg) (st : DBState)
    (hq : ∀ it ∈ o.items, 0 ≤ it.quantity)
    (hex : ∃ it ∈ o.items, cannotReserveB st.inventory o.warehouse_id it = true) :
    (create_order o st).1 = st ∧ isError (create_order o st).2 = true := by
  obtain ⟨msg, hmsg⟩ := processItems_fails hq hex
  rw [create_order_error hmsg]
  exact ⟨rfl, rfl⟩

/-- The spec's §8 example: the warehouse holds 2 of product 1 and 1 of
product 2. -/
def exampleStoreC2 : Store := [((1, 1), ⟨2, 0, 0⟩), ((2, 1), ⟨1, 0, 0⟩)]

/-- The spec's §8 example order: items [(P1,2),(P2,100)]. -/
def exampleOrderC2 : OrderCreateMsg := ⟨9, 1, [⟨1, 2⟩, ⟨2, 100⟩]⟩

/-- C2, witness: the spec's §8 example — [(P1,2),(P2,100)] against stock
(P1:2, P2:1) — is rejected with the store rolled back to its pre-attempt
value. -/
theorem create_order_rejects_atomically_witness :
    (∀ it ∈ exampleOrderC2.items, 0 ≤ it.quantity) ∧
    (∃ it ∈ exampleOrderC2.items,
      cannotReserveB exampleStoreC2 exampleOrderC2.warehouse_id it = true) ∧
    ((create_order exampleOrderC2 ⟨exampleStoreC2, [], [], 1⟩).1 =
        ⟨exampleStoreC2, [], [], 1⟩ ∧
      isError (create_order exampleOrderC2 ⟨exampleStoreC2, [], [], 1⟩).2 = true) :=
  ⟨by decide, by decide,
    create_order_rejects_atomically _ _ (by decide) (by decide)⟩

/-! ### Claim C3: transfer semantics -/

theorem transfer_inventory_fail {t : TransferMsg} {s : Store}
    (h : findEntry s (t.product_id, t.from_warehouse_id) = none ∨
      ∃ src, findEntry s (t.product_id, t.from_warehouse_id) = some src ∧
        src.quantity < t.quantity) :
    transfer_inventory t s = (s, .error "Insufficient inventory in source warehouse") := by
  unfold transfer_inventory
  rcases h with h | ⟨src, hsrc, hlt⟩
  · rw [h]
  · rw [hsrc]
    simp [hlt]

theorem transfer_inventory_success {t : TransferMsg} {s : Store} {src : StockEntry}
    (hne : t.from_warehouse_id ≠ t.to_warehouse_id)
    (hsrc : findEntry s (t.product_id, t.from_warehouse_id) = some src)
    (hq : t.quantity ≤ src.quantity) :
    (transfer_inventory t s).2 =
      .ok [Event.inventory_transfer t.product_id t.from_warehouse_id
            t.to_warehouse_id t.quantity] ∧
    findEntry (transfer_inventory t s).1 (t.product_id, t.from_warehouse_id) =
      some ⟨src.quantity - t.quantity, src.reservedQuantity, src.lowStockThreshold⟩ ∧
    findEntry (transfer_inventory t s).1 (t.product_id, t.to_warehouse_id) =
      some (match findEntry s (t.product_id, t.to_warehouse_id) with
            | some d => ⟨d.quantity + t.quantity, d.reservedQuantity,
                d.lowStockThreshold⟩
            | none => ⟨t.quantity, 0, src.lowStockThreshold⟩) := by
  have hlt : ¬ src.quantity < t.quantity := not_lt.mpr hq
  have hto : ((t.product_id, t.to_warehouse_id) : Key) ≠
      (t.product_id, t.from_warehouse_id) := by
    simp [Ne.symm hne]
  have hfrom : ((t.product_id, t.from_warehouse_id) : Key) ≠
      (t.product_id, t.to_warehouse_id) := by
    simp [hne]
  have hs1to : findEntry
      (setEntry s (t.product_id, t.from_warehouse_id)
        { src with quantity := src.quantity - t.quantity })
      (t.product_id, t.to_warehouse_id) =
      findEntry s (t.product_id, t.to_warehouse_id) :=
    findEntry_setEntry_ne _ _ _ _ hto
  unfold transfer_inventory
  rw [hsrc]
  simp only [if_neg hlt, hs1to]
  cases hd : findEntry s (t.product_id, t.to_warehouse_id) with
  | some d =>
    refine ⟨by trivial, ?_, ?_⟩
    · rw [findEntry_setEntry_ne _ _ _ _ hfrom, findEntry_setEntry_same]
    · rw [findEntry_setEntry_same]
  | none =>
    refine ⟨by trivial, ?_, ?_⟩
    · rw [findEntry_setEntry_ne _ _ _ _ hfrom, findEntry_setEntry_same]
    · rw [findEntry_setEntry_same]

/-- C3: for a transfer between distinct warehouses — if the source row
exists with `quantity ≥` the transferred amount, the call succeeds, the
source decreases by the amount, the destination increases by it (being
created with the source's `low_stock_threshold` when absent) and one
`inventory_transfer` event is emitted; if the source row is missing or
short-stocked, the call fails with the insufficient-stock detail and the
store is completely unchanged. -/
theorem transfer_inventory_spec (t : TransferMsg) (s : Store)
    (hne : t.from_warehouse_id ≠ t.to_warehouse_id) :
    (∀ src, findEntry s (t.product_id, t.from_warehouse_id) = some src →
      t.quantity ≤ src.quantity →
      (transfer_inventory t s).2 =
        .ok [Event.inventory_transfer t.product_id t.from_warehouse_id
              t.to_warehouse_id t.quantity] ∧
      findEntry (transfer_inventory t s).1 (t.product_id, t.from_warehouse_id) =
        some ⟨src.quantity - t.quantity, src.reservedQuantity,
          src.lowStockThreshold⟩ ∧
      findEntry (transfer_inventory t s).1 (t.product_id, t.to_warehouse_id) =
        some (match findEntry s (t.product_id, t.to_warehouse_id) with
              | some d => ⟨d.quantity + t.quantity, d.reservedQuantity,
                  d.lowStockThreshold⟩
              | none => ⟨t.quantity, 0, src.lowStockThreshold⟩)) ∧
    ((findEntry s (t.product_id, t.from_warehouse_id) = none ∨
      ∃ src, findEntry s (t.product_id, t.from_warehouse_id) = some src ∧
        src.quantity < t.quantity) →
      transfer_inventory t s =
        (s, .error "Insufficient inventory in source warehouse")) := by
  constructor
  · intro src hsrc hq
    exact transfer_inventory_success hne hsrc hq
  · exact transfer_inventory_fail

/-- The spec's §8 transfer example: warehouse 1 holds 10 units of product 1,
warehouse 2 holds none. -/
def exampleStoreC3 : Store := [((1, 1), ⟨10, 0, 2⟩)]

/-- C3, witness: the spec's §8 example — transferring 10 units empties
warehouse 1 and creates warehouse 2's row at 10 with the inherited
threshold; transferring 11 fails and leaves the store unchanged. -/
theorem transfer_inventory_spec_witness :
    ((transfer_inventory ⟨1, 2, 1, 10⟩ exampleStoreC3).2 =
        .ok [Event.inventory_transfer 1 1 2 10] ∧
      findEntry (transfer_inventory ⟨1, 2, 1, 10⟩ exampleStoreC3).1 (1, 1) =
        some ⟨0, 0, 2⟩ ∧
      findEntry (transfer_inventory ⟨1, 2, 1, 10⟩ exampleStoreC3).1 (1, 2) =
        some ⟨10, 0, 2⟩) ∧
    transfer_inventory ⟨1, 2, 1, 11⟩ exampleStoreC3 =
      (exampleStoreC3, .error "Insufficient inventory in source warehouse") := by
  have h1 := (transfer_inventory_spec ⟨1, 2, 1, 10⟩ exampleStoreC3 (by decide)).1
    ⟨10, 0, 2⟩ (by decide) (by decide)
  have h2 := (transfer_inventory_spec ⟨1, 2, 1, 11⟩ exampleStoreC3 (by decide)).2
    (Or.inr ⟨⟨10, 0, 2⟩, by decide, by decide⟩)
  exact ⟨⟨h1.1, h1.2.1, h1.2.2⟩, h2⟩

/-! ### Claim C4: successful order -/

instance {ε α : Type} [DecidableEq ε] [DecidableEq α] : DecidableEq (Except ε α) :=
  fun x y =>
    match x, y with
    | .error a, .error b =>
      if h : a = b then .isTrue (h ▸ rfl)
      else .isFalse fun hc => h (Except.error.inj hc)
    | .error _, .ok _ => .isFalse fun hc => Except.noConfusion hc
    | .ok _, .error _ => .isFalse fun hc => Except.noConfusion hc
    | .ok a, .ok b =>
      if h : a = b then .isTrue (h ▸ rfl)
      else .isFalse fun hc => h (Except.ok.inj hc)

theorem processItems_success {oid wid : Nat} {items : List OrderItemMsg} {s : Store}
    (hnd : (items.map (fun it => it.product_id)).Nodup)
    (hok : ∀ it ∈ items, ∃ e, findEntry s (it.product_id, wid) = some e ∧
      it.quantity ≤ e.quantity) :
    ∃ s', processItems oid wid items s =
        .ok (s', items.map (fun it => ⟨oid, it.product_id, it.quantity⟩)) ∧
      (∀ it ∈ items, ∀ e, findEntry s (it.product_id, wid) = some e →
        findEntry s' (it.product_id, wid) =
          some ⟨e.quantity - it.quantity, e.reservedQuantity + it.quantity,
            e.lowStockThreshold⟩) ∧
      (∀ k : Key, (k.2 ≠ wid ∨ k.1 ∉ items.map (fun it => it.product_id)) →
        findEntry s' k = findEntry s k) := by
  induction items generalizing s with
  | nil => exact ⟨s, rfl, by simp, fun k _ => rfl⟩
  | cons it rest ih =>
    obtain ⟨e, hfind, hq⟩ := hok it (List.mem_cons_self _ _)
    have hlt : ¬ e.quantity < it.quantity := not_lt.mpr hq
    have hndrest : (rest.map (fun x => x.product_id)).Nodup := by
      simp only [List.map_cons, List.nodup_cons] at hnd
      exact hnd.2
    have hitnotin : it.product_id ∉ rest.map (fun x => x.product_id) := by
      simp only [List.map_cons, List.nodup_cons] at hnd
      exact hnd.1
    have hokrest : ∀ x ∈ rest, ∃ e',
        findEntry (setEntry s (it.product_id, wid)
          { quantity := e.quantity - it.quantity,
            reservedQuantity := e.reservedQuantity + it.quantity,
            lowStockThreshold := e.lowStockThreshold }) (x.product_id, wid) = some e' ∧
        x.quantity ≤ e'.quantity := by
      intro x hx
      obtain ⟨e', hfind', hq'⟩ := hok x (List.mem_cons_of_mem _ hx)
      have hpne : x.product_id ≠ it.product_id := by
        intro hc
        exact hitnotin (hc ▸ List.mem_map_of_mem _ hx)
      have hne : ((x.product_id, wid) : Key) ≠ (it.product_id, wid) := by
        simp [hpne]
      exact ⟨e', by rw [findEntry_setEntry_ne _ _ _ _ hne]; exact hfind', hq'⟩
    obtain ⟨s', hrec, hupd, hframe⟩ := ih hndrest hokrest
    refine ⟨s', ?_, ?_, ?_⟩
    · simp only [processItems, hfind, if_neg hlt, hrec, List.map_cons]
    · intro x hx e0 hfind0
      rcases List.mem_cons.mp hx with rfl | hx'
      · rw [hfind] at hfind0
        injection hfind0 with he0
        subst he0
        have hfr : findEntry s' (x.product_id, wid) =
            findEntry (setEntry s (x.product_id, wid)
              { quantity := e.quantity - x.quantity,
                reservedQuantity := e.reservedQuantity + x.quantity,
                lowStockThreshold := e.lowStockThreshold }) (x.product_id, wid) :=
          hframe (x.product_id, wid) (Or.inr hitnotin)
        rw [hfr, findEntry_setEntry_same]
      · have hpne : x.product_id ≠ it.product_id := by
          intro hc
          exact hitnotin (hc ▸ List.mem_map_of_mem _ hx')
        have hne : ((x.product_id, wid) : Key) ≠ (it.product_id, wid) := by
          simp [hpne]
        refine hupd x hx' e0 ?_
        rw [findEntry_setEntry_ne _ _ _ _ hne]
        exact hfind0
    · intro k hk
      have hkrest : k.2 ≠ wid ∨ k.1 ∉ rest.map (fun x => x.product_id) := by
        rcases hk with h | h
        · exact Or.inl h
        · refine Or.inr fun hc => h ?_
          simp only [List.map_cons, List.mem_cons]
          exact Or.inr hc
      have hkne : k ≠ ((it.product_id, wid) : Key) := by
        rcases hk with h | h
        · intro hc
          exact h (by rw [hc])
        · intro hc
          refine h ?_
          simp only [List.map_cons, List.mem_cons]
          exact Or.inl (by rw [hc])
      rw [hframe k hkrest, findEntry_setEntry_ne _ _ _ _ hkne]

/-- C4, counterexample: the event emitted for a successfully completed order
has `"type": "order_created"`, not `"order_completed"`: for a one-item order
fully coverable by stock, the complete event list is the single
`order_created` event, whose type name differs from `"order_completed"`. -/
theorem order_completed_event_not_emitted :
    (create_order ⟨3, 1, [⟨1, 2⟩]⟩ ⟨[((1, 1), ⟨5, 0, 0⟩)], [], [], 1⟩).2 =
      .ok (⟨1, 3, 1, "COMPLETED"⟩, [Event.order_created 1 "COMPLETED"]) ∧
    Event.typeName (Event.order_created 1 "COMPLETED") ≠ "order_completed" :=
  ⟨by decide, by decide⟩

/-- C4, amended: for an order whose items name pairwise-distinct products and
are each fully coverable by the warehouse's stock, `create_order` returns a
COMPLETED order, persists it, emits exactly one `order_created` (not
`order_completed`) event carrying the order id and status, and moves each
item's quantity from the entry's available pool to its reserved pool. -/
theorem create_order_success_spec (o : OrderCreateMsg) (st : DBState)
    (hnd : (o.items.map (fun it => it.product_id)).Nodup)
    (hok : ∀ it ∈ o.items, ∃ e,
      findEntry st.inventory (it.product_id, o.warehouse_id) = some e ∧
      it.quantity ≤ e.quantity) :
    (create_order o st).2 =
      .ok (⟨st.nextOrderId, o.customer_id, o.warehouse_id, "COMPLETED"⟩,
        [Event.order_created st.nextOrderId "COMPLETED"]) ∧
    (create_order o st).1.orders = st.orders ++
      [⟨st.nextOrderId, o.customer_id, o.warehouse_id, "COMPLETED"⟩] ∧
    (∀ it ∈ o.items, ∀ e,
      findEntry st.inventory (it.product_id, o.warehouse_id) = some e →
      findEntry (create_order o st).1.inventory (it.product_id, o.warehouse_id) =
        some ⟨e.quantity - it.quantity, e.reservedQuantity + it.quantity,
          e.lowStockThreshold⟩) := by
  obtain ⟨s', hrec, hupd, _⟩ := @processItems_success st.nextOrderId o.warehouse_id o.items st.inventory hnd hok
  unfold create_order
  simp only [hrec]
  exact ⟨by trivial, by trivial, fun it hit e he => hupd it hit e he⟩

/-- C4, witness: a one-item order against sufficient stock completes, is
persisted, and moves 2 units from available to reserved. -/
theorem create_order_success_spec_witness :
    ((([⟨1, 2⟩] : List OrderItemMsg).map (fun it => it.product_id)).Nodup) ∧
    (create_order ⟨3, 1, [⟨1, 2⟩]⟩ ⟨[((1, 1), ⟨5, 0, 0⟩)], [], [], 1⟩).2 =
      .ok (⟨1, 3, 1, "COMPLETED"⟩, [Event.order_created 1 "COMPLETED"]) ∧
    (create_order ⟨3, 1, [⟨1, 2⟩]⟩ ⟨[((1, 1), ⟨5, 0, 0⟩)], [], [], 1⟩).1.orders =
      [⟨1, 3, 1, "COMPLETED"⟩] ∧
    findEntry (create_order ⟨3, 1, [⟨1, 2⟩]⟩
        ⟨[((1, 1), ⟨5, 0, 0⟩)], [], [], 1⟩).1.inventory (1, 1) =
      some ⟨3, 2, 0⟩ := by
  have h := create_order_success_spec ⟨3, 1, [⟨1, 2⟩]⟩
    ⟨[((1, 1), ⟨5, 0, 0⟩)], [], [], 1⟩ (by decide)
    (fun it hit => ⟨⟨5, 0, 0⟩, by
      rcases List.mem_singleton.mp hit with rfl
      exact ⟨by decide, by decide⟩⟩)
  exact ⟨by decide, h.1, h.2.1, h.2.2 ⟨1, 2⟩ (List.mem_singleton.mpr rfl)
    ⟨5, 0, 0⟩ (by decide)⟩

/-! ### Claim C10: completed orders conserve stock -/

theorem processItems_conserve {oid wid : Nat} {items : List OrderItemMsg}
    {s s' : Store} {recs : List OrderItemRec}
    (h : processItems oid wid items s = .ok (s', recs)) :
    (∀ k e, findEntry s k = some e → ∃ e', findEntry s' k = some e' ∧
      e'.quantity + e'.reservedQuantity = e.quantity + e.reservedQuantity) ∧
    (∀ k : Key, (k.2 ≠ wid ∨ k.1 ∉ items.map (fun it => it.product_id)) →
      findEntry s' k = findEntry s k) := by
  induction items generalizing s s' recs with
  | nil =>
    simp only [processItems, Except.ok.injEq, Prod.mk.injEq] at h
    obtain ⟨h1, _⟩ := h
    subst h1
    exact ⟨fun k e he => ⟨e, he, rfl⟩, fun k _ => rfl⟩
  | cons it rest ih =>
    simp only [processItems] at h
    cases hfind : findEntry s (it.product_id, wid) with
    | none => rw [hfind] at h; simp at h
    | some e =>
      rw [hfind] at h
      by_cases hlt : e.quantity < it.quantity
      · simp [hlt] at h
      · simp only [if_neg hlt] at h
        cases hrec : processItems oid wid rest (setEntry s (it.product_id, wid)
            { quantity := e.quantity - it.quantity,
              reservedQuantity := e.reservedQuantity + it.quantity,
              lowStockThreshold := e.lowStockThreshold }) with
        | error msg => rw [hrec] at h; simp at h
        | ok p =>
          obtain ⟨s2, recs2⟩ := p
          rw [hrec] at h
          simp only [Except.ok.injEq, Prod.mk.injEq] at h
          obtain ⟨hs2, _⟩ := h
          subst hs2
          obtain ⟨ihsum, ihframe⟩ := ih hrec
          constructor
          · intro k e0 he0
            by_cases hk : k = ((it.product_id, wid) : Key)
            · subst hk
              rw [hfind] at he0
              injection he0 with he0
              obtain ⟨e', h1, h2⟩ := ihsum _ _ (findEntry_setEntry_same s
                (it.product_id, wid)
                { quantity := e.quantity - it.quantity,
                  reservedQuantity := e.reservedQuantity + it.quantity,
                  lowStockThreshold := e.lowStockThreshold })
              refine ⟨e', h1, ?_⟩
              rw [h2, ← he0]
              ring
            · obtain ⟨e', h1, h2⟩ := ihsum k e0
                (by rw [findEntry_setEntry_ne _ _ _ _ hk]; exact he0)
              exact ⟨e', h1, h2⟩
          · intro k hk
            have hkrest : k.2 ≠ wid ∨ k.1 ∉ rest.map (fun x => x.product_id) := by
              rcases hk with h | h
              · exact Or.inl h
              · refine Or.inr fun hc => h ?_
                simp only [List.map_cons, List.mem_cons]
                exact Or.inr hc
            have hkne : k ≠ ((it.product_id, wid) : Key) := by
              rcases hk with h | h
              · intro hc
                exact h (by rw [hc])
              · intro hc
                refine h ?_
                simp only [List.map_cons, List.mem_cons]
                exact Or.inl (by rw [hc])
            rw [ihframe k hkrest, findEntry_setEntry_ne _ _ _ _ hkne]

/-- C10: a successfully completed order never creates or destroys units — for
every pre-existing StockEntry, `quantity + reservedQuantity` is the same after
`create_order` as before it — and every entry whose (product, warehouse) key
is not in the order's item list is entirely unchanged. -/
theorem create_order_conserves_stock (o : OrderCreateMsg) (st : DBState)
    (r : OrderRec × List Event) (h : (create_order o st).2 = .ok r) :
    (∀ k e, findEntry st.inventory k = some e →
      ∃ e', findEntry (create_order o st).1.inventory k = some e' ∧
        e'.quantity + e'.reservedQuantity = e.quantity + e.reservedQuantity) ∧
    (∀ k : Key, (k.2 ≠ o.warehouse_id ∨
        k.1 ∉ o.items.map (fun it => it.product_id)) →
      findEntry (create_order o st).1.inventory k = findEntry st.inventory k) := by
  cases hrec : processItems st.nextOrderId o.warehouse_id o.items st.inventory with
  | error msg =>
    rw [create_order_error hrec] at h
    simp at h
  | ok p =>
    obtain ⟨s', recs⟩ := p
    have hstate : (create_order o st).1.inventory = s' := by
      unfold create_order
      simp only [hrec]
    rw [hstate]
    exact processItems_conserve hrec

/-- C10, witness: a completed one-item order leaves the touched entry's
`quantity + reservedQuantity` at its pre-order total and leaves an entry of
another product untouched. -/
theorem create_order_conserves_stock_witness :
    (create_order ⟨3, 1, [⟨1, 2⟩]⟩
        ⟨[((1, 1), ⟨5, 0, 0⟩), ((2, 1), ⟨7, 1, 4⟩)], [], [], 1⟩).2 =
      .ok (⟨1, 3, 1, "COMPLETED"⟩, [Event.order_created 1 "COMPLETED"]) ∧
    (∃ e', findEntry (create_order ⟨3, 1, [⟨1, 2⟩]⟩
        ⟨[((1, 1), ⟨5, 0, 0⟩), ((2, 1), ⟨7, 1, 4⟩)], [], [], 1⟩).1.inventory
        (1, 1) = some e' ∧
      e'.quantity + e'.reservedQuantity = (5 : Int) + 0) ∧
    findEntry (create_order ⟨3, 1, [⟨1, 2⟩]⟩
        ⟨[((1, 1), ⟨5, 0, 0⟩), ((2, 1), ⟨7, 1, 4⟩)], [], [], 1⟩).1.inventory
        (2, 1) =
      findEntry [((1, 1), ⟨5, 0, 0⟩), ((2, 1), ⟨7, 1, 4⟩)] (2, 1) := by
  have h := create_order_conserves_stock ⟨3, 1, [⟨1, 2⟩]⟩
    ⟨[((1, 1), ⟨5, 0, 0⟩), ((2, 1), ⟨7, 1, 4⟩)], [], [], 1⟩
    (⟨1, 3, 1, "COMPLETED"⟩, [Event.order_created 1 "COMPLETED"]) (by decide)
  exact ⟨by decide, h.1 (1, 1) ⟨5, 0, 0⟩ (by decide), h.2 (2, 1) (by decide)⟩

/-! ### Claim C6: rejected orders -/

theorem find?_congr_on {α : Type} {l : List α} {p q : α → Bool}
    (h : ∀ x ∈ l, p x = q x) : l.find? p = l.find? q := by
  induction l with
  | nil => rfl
  | cons a l ih =>
    simp only [List.find?]
    rw [h a (List.mem_cons_self _ _)]
    cases hqa : q a with
    | true => rfl
    | false => exact ih fun x hx => h x (List.mem_cons_of_mem _ hx)

theorem processItems_first_fail {oid wid : Nat} {items : List OrderItemMsg}
    {s : Store} {bad : OrderItemMsg}
    (hnd : (items.map (fun it => it.product_id)).Nodup)
    (hfirst : items.find? (fun it => cannotReserveB s wid it) = some bad) :
    processItems oid wid items s =
      .error ("Insufficient stock for product " ++ toString bad.product_id) := by
  induction items generalizing s with
  | nil => simp [List.find?] at hfirst
  | cons it rest ih =>
    simp only [List.find?] at hfirst
    cases hbad : cannotReserveB s wid it with
    | true =>
      rw [hbad] at hfirst
      injection hfirst with hfirst
      subst hfirst
      unfold cannotReserveB at hbad
      simp only [processItems]
      cases hfind : findEntry s (it.product_id, wid) with
      | none => rfl
      | some e =>
        rw [hfind] at hbad
        simp only [decide_eq_true_eq] at hbad
        simp [hbad]
    | false =>
      rw [hbad] at hfirst
      unfold cannotReserveB at hbad
      cases hfind : findEntry s (it.product_id, wid) with
      | none => rw [hfind] at hbad; simp at hbad
      | some e =>
        rw [hfind] at hbad
        simp only [decide_eq_false_iff_not] at hbad
        have hndrest : (rest.map (fun x => x.product_id)).Nodup := by
          simp only [List.map_cons, List.nodup_cons] at hnd
          exact hnd.2
        have hitnotin : it.product_id ∉ rest.map (fun x => x.product_id) := by
          simp only [List.map_cons, List.nodup_cons] at hnd
          exact hnd.1
        have hcongr : ∀ x ∈ rest, cannotReserveB s wid x =
            cannotReserveB (setEntry s (it.product_id, wid)
              { quantity := e.quantity - it.quantity,
                reservedQuantity := e.reservedQuantity + it.quantity,
                lowStockThreshold := e.lowStockThreshold }) wid x := by
          intro x hx
          have hpne : x.product_id ≠ it.product_id := by
            intro hc
            exact hitnotin (hc ▸ List.mem_map_of_mem _ hx)
          have hne : ((x.product_id, wid) : Key) ≠ (it.product_id, wid) := by
            simp [hpne]
          unfold cannotReserveB
          rw [findEntry_setEntry_ne _ _ _ _ hne]
        rw [find?_congr_on hcongr] at hfirst
        have hrec := ih hndrest hfirst
        simp only [processItems, hfind, if_neg hbad, hrec]

/-- C6, counterexample: a rejected order request persists no Order at all —
there is no REJECTED state; the whole transaction, its PENDING order
included, is rolled back, so the orders table is exactly its pre-attempt
value (here, empty). -/
theorem rejected_order_not_persisted :
    isError (create_order ⟨3, 1, [⟨1, 5⟩]⟩
      ⟨[((1, 1), ⟨1, 0, 0⟩)], [], [], 1⟩).2 = true ∧
    (create_order ⟨3, 1, [⟨1, 5⟩]⟩
      ⟨[((1, 1), ⟨1, 0, 0⟩)], [], [], 1⟩).1.orders = [] := by
  decide

/-- C6, amended: for a rejected order request (over pairwise-distinct
products), nothing is persisted — the state returns to its pre-attempt
value, with no Order row in any state — and the rejection detail names the
first item, in the given item-list order, whose reservation failed. -/
theorem create_order_rejection_cause (o : OrderCreateMsg) (st : DBState)
    (bad : OrderItemMsg)
    (hnd : (o.items.map (fun it => it.product_id)).Nodup)
    (hfirst : o.items.find?
      (fun it => cannotReserveB st.inventory o.warehouse_id it) = some bad) :
    create_order o st =
      (st, .error ("Insufficient stock for product " ++ toString bad.product_id)) :=
  create_order_error (processItems_first_fail hnd hfirst)

/-- C6, witness: for items [(P1,2),(P2,100)] against stock (P1:2, P2:1), the
first failing item is (P2,100) and the rejection names product 2, with the
state unchanged. -/
theorem create_order_rejection_cause_witness :
    (([⟨1, 2⟩, ⟨2, 100⟩] : List OrderItemMsg).find?
      (fun it => cannotReserveB [((1, 1), ⟨2, 0, 0⟩), ((2, 1), ⟨1, 0, 0⟩)] 1 it)
      = some ⟨2, 100⟩) ∧
    create_order ⟨9, 1, [⟨1, 2⟩, ⟨2, 100⟩]⟩
        ⟨[((1, 1), ⟨2, 0, 0⟩), ((2, 1), ⟨1, 0, 0⟩)], [], [], 1⟩ =
      (⟨[((1, 1), ⟨2, 0, 0⟩), ((2, 1), ⟨1, 0, 0⟩)], [], [], 1⟩,
        .error "Insufficient stock for product 2") :=
  ⟨by decide,
    create_order_rejection_cause _ _ ⟨2, 100⟩ (by decide) (by decide)⟩

/-! ### Claim C5: non-positive amounts -/

/-- C5, counterexample: a transfer of amount -3 is neither rejected with
`InvalidArgument` nor mutation-free: the stock check `quantity < -3` passes,
the call succeeds, the source gains 3 units and a destination row is created
with quantity -3.  (No non-positivity validation exists anywhere in the
endpoints.) -/
theorem negative_transfer_not_rejected :
    (transfer_inventory ⟨1, 2, 1, -3⟩ [((1, 1), ⟨5, 0, 3⟩)]).2 =
      .ok [Event.inventory_transfer 1 1 2 (-3)] ∧
    (transfer_inventory ⟨1, 2, 1, -3⟩ [((1, 1), ⟨5, 0, 3⟩)]).1 =
      [((1, 1), ⟨8, 0, 3⟩), ((1, 2), ⟨-3, 0, 3⟩)] := by
  decide

/-- C5, amended: the endpoints perform no `InvalidArgument` validation of
amounts: a transfer of non-positive amount between distinct warehouses whose
source row exists with non-negative quantity always passes the stock check,
succeeds, and mutates the store (the source row's quantity moves to
`quantity - amount`). -/
theorem transfer_nonpositive_not_rejected (t : TransferMsg) (s : Store)
    (src : StockEntry) (hq : t.quantity ≤ 0)
    (hne : t.from_warehouse_id ≠ t.to_warehouse_id)
    (hsrc : findEntry s (t.product_id, t.from_warehouse_id) = some src)
    (hsq : 0 ≤ src.quantity) :
    (transfer_inventory t s).2 =
      .ok [Event.inventory_transfer t.product_id t.from_warehouse_id
            t.to_warehouse_id t.quantity] ∧
    findEntry (transfer_inventory t s).1 (t.product_id, t.from_warehouse_id) =
      some ⟨src.quantity - t.quantity, src.reservedQuantity,
        src.lowStockThreshold⟩ := by
  have h := transfer_inventory_success hne hsrc (le_trans hq hsq)
  exact ⟨h.1, h.2.1⟩

/-- C5, witness: the transfer of amount -3 from the counterexample, derived
through the amended statement. -/
theorem transfer_nonpositive_not_rejected_witness :
    ((-3 : Int) ≤ 0) ∧
    (transfer_inventory ⟨1, 2, 1, -3⟩ [((1, 1), ⟨5, 0, 3⟩)]).2 =
      .ok [Event.inventory_transfer 1 1 2 (-3)] ∧
    findEntry (transfer_inventory ⟨1, 2, 1, -3⟩ [((1, 1), ⟨5, 0, 3⟩)]).1 (1, 1) =
      some ⟨8, 0, 3⟩ := by
  have h := transfer_nonpositive_not_rejected ⟨1, 2, 1, -3⟩
    [((1, 1), ⟨5, 0, 3⟩)] ⟨5, 0, 3⟩ (by decide) (by decide) (by decide) (by decide)
  exact ⟨by decide, h.1, h.2⟩

/-! ### Claim C8: reserve/release round trip -/

/-- C8 (spec-modelled `tryReserve`/`release`): when a reservation of a
positive amount succeeds on an entry whose reserved pool is non-negative (the
spec's standing invariant), an immediate release of the same amount succeeds
and restores the whole store — in particular the entry's quantity and
reservedQuantity — to the pre-reserve values. -/
theorem tryReserve_release_roundtrip (s : Store) (pid wid : Nat) (amount : Int)
    (e : StockEntry) (hfind : findEntry s (pid, wid) = some e)
    (hres : 0 ≤ e.reservedQuantity) (hpos : 0 < amount)
    (hq : amount ≤ e.quantity) :
    ∃ s', tryReserve s pid wid amount = .ok s' ∧
      release s' pid wid amount = .ok s := by
  have hnle : ¬ amount ≤ 0 := not_le.mpr hpos
  have hlt : ¬ e.quantity < amount := not_lt.mpr hq
  refine ⟨setEntry s (pid, wid)
    { e with quantity := e.quantity - amount,
             reservedQuantity := e.reservedQuantity + amount }, ?_, ?_⟩
  · unfold tryReserve
    rw [if_neg hnle, hfind]
    simp [hlt]
  · unfold release
    rw [findEntry_setEntry_same]
    have hok : ¬ (e.reservedQuantity + amount < amount) :=
      not_lt.mpr (le_add_of_nonneg_left hres)
    simp only [if_neg hok]
    rw [setEntry_setEntry]
    have hent : (⟨e.quantity - amount + amount,
        e.reservedQuantity + amount - amount,
        e.lowStockThreshold⟩ : StockEntry) = e := by
      obtain ⟨q, r, th⟩ := e
      simp only [StockEntry.mk.injEq]
      exact ⟨by ring, by ring, by trivial⟩
    rw [hent, setEntry_self hfind]

/-- C8, witness: reserving 2 on entry (q=5, r=1) then releasing 2 restores
the original store. -/
theorem tryReserve_release_roundtrip_witness :
    ((0 : Int) ≤ 1 ∧ (0 : Int) < 2 ∧ (2 : Int) ≤ 5) ∧
    (∃ s', tryReserve [((1, 1), ⟨5, 1, 0⟩)] 1 1 2 = .ok s' ∧
      release s' 1 1 2 = .ok [((1, 1), ⟨5, 1, 0⟩)]) :=
  ⟨⟨by decide, by decide, by decide⟩,
    tryReserve_release_roundtrip [((1, 1), ⟨5, 1, 0⟩)] 1 1 2 ⟨5, 1, 0⟩
      (by decide) (by decide) (by decide) (by decide)⟩

/-! ### Claim C9: broadcast to observers -/

/-- C9, counterexample: with the observer set iterating as [client 1
(disconnected), client 2 (connected)], the unguarded send loop raises on
client 1: nothing is delivered — client 2 does not receive the event — and
`notify_clients` removes nobody from the set (removal only happens in the
endpoint's own receive loop). -/
theorem broadcast_blocked_by_disconnected :
    notify_clients [⟨1, false⟩, ⟨2, true⟩] "ev" = ([], false) ∧
    (2, "ev") ∉ (notify_clients [⟨1, false⟩, ⟨2, true⟩] "ev").1 := by
  decide

/-- C9, amended: a failing delivery aborts the broadcast instead of being
skipped: exactly the clients strictly before the first disconnected client in
iteration order receive the event (everyone iff all are connected), the loop
reports failure as soon as a disconnected client is hit, and the observer set
itself is never modified by `notify_clients`. -/
theorem notify_clients_semantics (clients : List ClientObs) (m : String) :
    notify_clients clients m =
      ((clients.takeWhile (fun c => c.connected)).map (fun c => (c.id, m)),
        clients.all (fun c => c.connected)) := by
  induction clients with
  | nil => rfl
  | cons c rest ih =>
    cases hc : c.connected <;>
      simp [notify_clients, hc, List.takeWhile_cons, ih]

end PrishaPrep
